import Mathlib

/-!
# Letter-counting TCP server (`server.c`): embedding and verified properties

The server accepts TCP connections, hands each one to a detached worker thread
(`handle_connection`), which reads the peer's byte stream to its end, counts the ASCII
letters in it and sends the count back as decimal text.

System calls are modelled by their results: every function of the source becomes a Lean
function that takes the results of the calls it makes and returns what it computes together
with the trace of calls it performed and whether the process is still alive. A call that
can end the process without returning (`send` raising `SIGPIPE`) has that outcome among its
results.

Machine integers: `int` is 32 bits wide and is kept in `Int`, reduced by `wrap_int` after every
arithmetic step that can leave the range (ISO C leaves signed overflow undefined; the usual
targets wrap in two's complement, and in no case can an `int` hold `2 ^ 31`).
-/

namespace Server

/-! ## Data model -/

/-- One byte of the wire stream or of a `char` array. -/
abbrev Byte := Fin 256

/-- The size of `buffer`: `#define MAX_BUFFER_SIZE 4096`. -/
def MAX_BUFFER_SIZE : Nat := 4096

/-- The status `EXIT_SUCCESS`. -/
def EXIT_SUCCESS : Int := 0

/-- The status `EXIT_FAILURE`. -/
def EXIT_FAILURE : Int := 1

/-- The error code `EINTR` of `<errno.h>`. -/
def EINTR : Int := 4

/-- A value of type `int` after an arithmetic step: reduced to the 32-bit two's-complement
range `-2^31 .. 2^31 - 1`. -/
def wrap_int (x : Int) : Int := (x + 2147483648) % 4294967296 - 2147483648

/-- The value of a byte seen through the type `char` (signed, as on x86). -/
def as_char (b : Byte) : Int := if b.val < 128 then (b.val : Int) else (b.val : Int) - 256

/-- The signal `SIGPIPE` of `<signal.h>`. -/
def SIGPIPE : Int := 13

/-- The outcome of `send(client_sockfd, response, response_length, 0)`. -/
inductive SendResult where
  /-- The call returned this value: the number of bytes taken, or -1. -/
  | returned (ret : Int)
  /-- The peer has reset the connection and the call raises `SIGPIPE`. The program sends with
  flags 0 and installs a handler for `SIGINT` only, so the default action of the signal ends
  the process inside the call. -/
  | sigpipe
  deriving DecidableEq, Repr

/-- A call made by the program, with its result where it has one. -/
inductive Event where
  | read (fd : Int) (ret : Int)
  | send (fd : Int) (payload : List Byte) (result : SendResult)
  | close (fd : Int) (ret : Int)
  | accept (fd : Int) (ret : Int)
  | malloc (ok : Bool)
  | free
  | pthread_create (arg : Int) (ret : Int)
  | pthread_detach
  | perror (msg : String)
  | printf (fmt : String) (arg : Int)
  | fprintf (fmt : String)
  | exit (code : Int)
  deriving DecidableEq, Repr

/-- How a function was left: by returning, or by `exit(code)` ending the whole process. -/
inductive Flow where
  | returned
  | exited (code : Int)
  deriving DecidableEq, Repr

/-- How the run of a worker ends: it returns, or the process ends by `exit(code)`, or the
process is ended by a signal. -/
inductive Ending where
  | returned
  | exited (code : Int)
  | killed (signal : Int)
  deriving DecidableEq, Repr

/-- The ending that a function left in this way gives to the thread running it. -/
def Flow.ending : Flow → Ending
  | Flow.returned => Ending.returned
  | Flow.exited code => Ending.exited code

/-- The result of one `read(client_sockfd, buffer, sizeof(buffer))`. -/
inductive ReadResult where
  /-- The call stored `bytes` at the start of `buffer` and returned their number. -/
  | data (bytes : List Byte)
  /-- The call returned 0: the peer closed its sending side. -/
  | eof
  /-- The call returned -1 with this `errno`. -/
  | error (errno : Int)
  deriving DecidableEq, Repr

/-- The value `read` returns. -/
def ReadResult.ret : ReadResult → Int
  | .data bytes => (bytes.length : Int)
  | .eof => 0
  | .error _ => -1

/-- The contents of `buffer` after the call. -/
def ReadResult.store : ReadResult → List Byte → List Byte
  | .data bytes, buffer => bytes ++ buffer.drop bytes.length
  | .eof, buffer => buffer
  | .error _, buffer => buffer

/-! ## `count_alphabetic_letters` -/

/-- The test of the `if` in `count_alphabetic_letters`, on one `char`. -/
def letter_test (c : Int) : Bool := (c ≥ 97 && c ≤ 122) || (c ≥ 65 && c ≤ 90)

/-- The function `count_alphabetic_letters(buffer, length)`: the `for` loop over `i = 0 .. length - 1`,
`count++` for each `buffer[i]` that passes the test. -/
def count_alphabetic_letters (buffer : List Byte) (length : Nat) : Int :=
  (List.range length).foldl
    (fun count i => if letter_test (as_char (buffer.getD i 0)) then wrap_int (count + 1) else count) 0

/-! ## Formatting the reply -/

/-- The decimal digits of `n`, most significant first, as ASCII bytes, in front of `acc`. -/
def decimal_digits : Nat → Nat → List Byte → List Byte
  | 0, _, acc => acc
  | fuel + 1, n, acc =>
    if n / 10 = 0 then Fin.ofNat (48 + n % 10) :: acc
    else decimal_digits fuel (n / 10) (Fin.ofNat (48 + n % 10) :: acc)

/-- The text `printf`'s `%d` produces for an `int`. -/
def format_d (n : Int) : List Byte :=
  if n < 0 then 45 :: decimal_digits (n.natAbs + 1) n.natAbs []
  else decimal_digits (n.toNat + 1) n.toNat []

/-- The call `snprintf(response, size, "%d", n)`: at most `size - 1` characters, then the NUL. -/
def snprintf_d (size : Nat) (n : Int) : List Byte :=
  (format_d n).take (size - 1) ++ [0]

/-- The function `strlen`: the number of bytes before the first NUL. -/
def strlen (s : List Byte) : Nat := (s.takeWhile (fun b => b != 0)).length

/-! ## `socket_close` -/

/-- The function `socket_close(sockfd)`, given the result of `close`: a failing `close` is logged and ends
the process with `EXIT_FAILURE`. -/
def socket_close (sockfd : Int) (close_ret : Int) : Flow × List Event :=
  if close_ret = -1 then
    (Flow.exited EXIT_FAILURE,
      [Event.close sockfd close_ret, Event.perror "Error closing socket", Event.exit EXIT_FAILURE])
  else (Flow.returned, [Event.close sockfd close_ret])

/-! ## `handle_connection` -/

/-- What a run of the worker leaves behind. -/
structure WorkerRun where
  /-- The final value of `letter_count`. -/
  letter_count : Int
  /-- The calls the worker made, in order. -/
  trace : List Event
  /-- Whether the worker returned or the process ended under it. -/
  ending : Ending
  deriving DecidableEq, Repr

/-- The `while ((bytes_read = read(...)) > 0)` loop of `handle_connection`. The list holds the
results of the successive `read` calls; when it is used up the next `read` never returns and
neither does the loop (`none`). The result is the last `bytes_read`, the final `letter_count`
and the `read` calls made. -/
def read_loop (client_sockfd : Int) :
    List ReadResult → List Byte → Int → Option (Int × Int × List Event)
  | [], _, _ => none
  | r :: rest, buffer, letter_count =>
    let bytes_read := r.ret
    let buffer := r.store buffer
    if bytes_read > 0 then
      match read_loop client_sockfd rest buffer
          (wrap_int (letter_count + count_alphabetic_letters buffer bytes_read.toNat)) with
      | none => none
      | some (last, total, calls) => some (last, total, Event.read client_sockfd bytes_read :: calls)
    else some (bytes_read, letter_count, [Event.read client_sockfd bytes_read])

/-- The worker `handle_connection`, for the connection `client_sockfd`, the initial contents
of `buffer`, the results of the `read` calls, the outcome of `send` and the result of `close`. -/
def handle_connection (client_sockfd : Int) (buffer : List Byte) (reads : List ReadResult)
    (send : SendResult) (close_ret : Int) : Option WorkerRun :=
  match read_loop client_sockfd reads buffer 0 with
  | none => none
  | some (bytes_read, letter_count, read_calls) =>
    let read_log := if bytes_read < 0 then [Event.perror "Error reading from client socket"] else []
    let response := snprintf_d 64 letter_count
    let response_length := strlen response
    let send_call := Event.send client_sockfd (response.take response_length) send
    match send with
    | SendResult.sigpipe =>
      some
        { letter_count := letter_count
          trace := Event.free :: read_calls ++ read_log ++ [send_call]
          ending := Ending.killed SIGPIPE }
    | SendResult.returned send_ret =>
      let send_log :=
        if send_ret < 0 then [Event.perror "Failed to send response to client"] else []
      let closing := socket_close client_sockfd close_ret
      some
        { letter_count := letter_count
          trace := Event.free :: read_calls ++ read_log ++ (send_call :: send_log) ++
            [Event.printf "Sent letter count: %d\n" letter_count] ++ closing.2
          ending := closing.1.ending }

/-- The payloads of the `send` calls on `fd` in a trace. -/
def sent_payloads (fd : Int) (trace : List Event) : List (List Byte) :=
  trace.filterMap fun e =>
    match e with
    | Event.send fd' payload _ => if fd' = fd then some payload else none
    | _ => none

/-! ## The accept loop of `main` -/

/-- The results of the calls one pass through the body of the accept loop can make. -/
structure IterationEnv where
  /-- The value `accept` returns: a descriptor, or -1. -/
  accept_ret : Int
  /-- The value of `errno` after a failed `accept`. -/
  errno : Int
  /-- Whether `malloc` returned a block (`true`) or `NULL`. -/
  malloc_ok : Bool
  /-- The value `pthread_create` returns: 0 when the thread was started. -/
  pthread_create_ret : Int
  /-- The value `close(client_fd)` returns, should the body close the connection. -/
  close_ret : Int
  deriving DecidableEq, Repr

/-- The function `socket_accept_connection(server_fd)`: the descriptor `accept` returned, and the calls made. -/
def socket_accept_connection (server_fd : Int) (accept_ret errno : Int) : Int × List Event :=
  let client_fd := accept_ret
  (client_fd,
    Event.accept server_fd accept_ret ::
      (if client_fd = -1 then (if errno ≠ EINTR then [Event.perror "Accept failed"] else [])
       else []))

/-- The body of `while (!exit_flag)` in `main`: one accept and, for a connection, its dispatch. -/
def loop_body (server_fd : Int) (env : IterationEnv) : Flow × List Event :=
  let accepted := socket_accept_connection server_fd env.accept_ret env.errno
  let client_fd := accepted.1
  if client_fd ≠ -1 then
    if env.malloc_ok then
      if env.pthread_create_ret ≠ 0 then
        let closing := socket_close client_fd env.close_ret
        let calls := accepted.2 ++
          [Event.malloc true, Event.pthread_create client_fd env.pthread_create_ret,
            Event.perror "Failed to create thread"] ++ closing.2
        match closing.1 with
        | Flow.returned => (Flow.returned, calls ++ [Event.free])
        | Flow.exited code => (Flow.exited code, calls)
      else
        (Flow.returned, accepted.2 ++
          [Event.malloc true, Event.pthread_create client_fd env.pthread_create_ret,
            Event.pthread_detach])
    else
      let closing := socket_close client_fd env.close_ret
      (closing.1, accepted.2 ++
        [Event.malloc false, Event.perror "Failed to allocate memory for client socket"] ++
        closing.2)
  else (Flow.returned, accepted.2)

/-- The end of `main`, after the loop: `socket_close(server_fd); return EXIT_SUCCESS;`.
The result is the exit status of the process and the calls made. -/
def after_loop (server_fd : Int) (close_ret : Int) : Int × List Event :=
  let closing := socket_close server_fd close_ret
  match closing.1 with
  | Flow.returned => (EXIT_SUCCESS, closing.2)
  | Flow.exited code => (code, closing.2)

/-- The handler `sigint_handler`: `exit_flag = 1`. -/
def sigint_handler (_exit_flag : Int) : Int := 1

/-- Where the controlling thread of `main` stands. -/
inductive Loc where
  /-- About to evaluate the condition of `while (!exit_flag)`. -/
  | loop_head
  /-- The condition held; `accept` has been called and has not returned yet. -/
  | in_accept
  /-- The process has ended with this exit status. -/
  | done (status : Int)
  deriving DecidableEq, Repr

/-- The state of the lifecycle controller. -/
structure Controller where
  /-- The position of the controlling thread. -/
  loc : Loc
  /-- The global `exit_flag`. -/
  exit_flag : Int
  /-- The calls made so far. -/
  trace : List Event
  deriving DecidableEq, Repr

/-- The events that move the controller. -/
inductive Step where
  /-- SIGINT is delivered and `sigint_handler` runs. -/
  | signal
  /-- The loop condition `!exit_flag` is evaluated; `close_ret` is the result of
  `close(server_fd)` in case the loop ends here. -/
  | flag_check (close_ret : Int)
  /-- The pending `accept` returns and the loop body runs with these results. -/
  | accept_result (env : IterationEnv)
  deriving DecidableEq, Repr

/-- The controller right after `setup_signal_handler()`. -/
def Controller.init : Controller := { loc := Loc.loop_head, exit_flag := 0, trace := [] }

/-- One step of the controller; `none` when the event cannot occur in this state. -/
def step (server_fd : Int) (c : Controller) : Step → Option Controller
  | Step.signal =>
    match c.loc with
    | Loc.done _ => none
    | _ => some { c with exit_flag := sigint_handler c.exit_flag }
  | Step.flag_check close_ret =>
    match c.loc with
    | Loc.loop_head =>
      if c.exit_flag = 0 then some { c with loc := Loc.in_accept }
      else
        let ending := after_loop server_fd close_ret
        some { c with loc := Loc.done ending.1, trace := c.trace ++ ending.2 }
    | _ => none
  | Step.accept_result env =>
    match c.loc with
    | Loc.in_accept =>
      let body := loop_body server_fd env
      match body.1 with
      | Flow.returned => some { c with loc := Loc.loop_head, trace := c.trace ++ body.2 }
      | Flow.exited code => some { c with loc := Loc.done code, trace := c.trace ++ body.2 }
    | _ => none

/-- A sequence of steps. -/
def run (server_fd : Int) : Controller → List Step → Option Controller
  | c, [] => some c
  | c, s :: rest =>
    match step server_fd c s with
    | none => none
    | some c' => run server_fd c' rest

/-- The states of the lifecycle the specification names. -/
inductive Phase where
  | RUNNING
  | DRAINING
  | TERMINATED
  deriving DecidableEq, Repr

/-- The lifecycle state a controller is in. -/
def Controller.phase (c : Controller) : Phase :=
  match c.loc with
  | Loc.done _ => Phase.TERMINATED
  | _ => if c.exit_flag = 0 then Phase.RUNNING else Phase.DRAINING

/-- An `accept` that returned a connection. -/
def is_accepted : Event → Bool
  | Event.accept _ ret => ret != -1
  | _ => false

/-- A `pthread_create` that started a worker. -/
def is_dispatch : Event → Bool
  | Event.pthread_create _ ret => ret == 0
  | _ => false

/-- A `close` of the descriptor `fd`. -/
def is_close_of (fd : Int) : Event → Bool
  | Event.close fd' _ => fd' == fd
  | _ => false

/-- Any `close`. -/
def is_close : Event → Bool
  | Event.close _ _ => true
  | _ => false

/-- A call to `exit`. -/
def is_exit : Event → Bool
  | Event.exit _ => true
  | _ => false

/-- A message written by `perror`. -/
def is_log : Event → Bool
  | Event.perror _ => true
  | _ => false

/-- A `read`, `send` or `close` on the descriptor `fd`. -/
def on_connection (fd : Int) : Event → Bool
  | Event.read fd' _ => fd' == fd
  | Event.send fd' _ _ => fd' == fd
  | Event.close fd' _ => fd' == fd
  | _ => false

/-! ## `parse_arguments` -/

/-- The test `isspace` in the C locale. -/
def isspace (c : Char) : Bool := c.toNat = 32 || (9 ≤ c.toNat && c.toNat ≤ 13)

/-- The test `isdigit`. -/
def isdigit (c : Char) : Bool := 48 ≤ c.toNat && c.toNat ≤ 57

/-- The value of the longest run of decimal digits at the start of a string, after `acc`. -/
def leading_digits : List Char → Nat → Nat
  | [], acc => acc
  | c :: rest, acc => if isdigit c then leading_digits rest (10 * acc + (c.toNat - 48)) else acc

/-- The bound `LONG_MAX` of a 64-bit `long`. -/
def LONG_MAX : Int := 9223372036854775807

/-- The bound `LONG_MIN` of a 64-bit `long`. -/
def LONG_MIN : Int := -9223372036854775808

/-- The value `strtol` returns for the number `v` it has read: `v` itself, or the nearest
bound of `long` when `v` is outside its range. -/
def strtol_value (v : Int) : Int :=
  if v > LONG_MAX then LONG_MAX else if v < LONG_MIN then LONG_MIN else v

/-- The function `atoi` of the C library, which is `(int) strtol(s, NULL, 10)`: blanks are
skipped, an optional sign is read, then the digits up to the first other character; no digits
give 0; the `long` is then cut down to an `int`. -/
def atoi (s : String) : Int :=
  match s.toList.dropWhile isspace with
  | [] => 0
  | c :: rest =>
    if c.toNat = 45 then wrap_int (strtol_value (-(leading_digits rest 0 : Int)))
    else if c.toNat = 43 then wrap_int (strtol_value (leading_digits rest 0))
    else wrap_int (strtol_value (leading_digits (c :: rest) 0))

/-- The function `usage(program_name, exit_code, message)` of the server: prints the message
and the usage line to `stderr` and calls `exit`. -/
def usage (program_name : String) (exit_code : Int) (message : Option String) :
    Flow × List Event :=
  (Flow.exited exit_code,
    (match message with
      | some m => [Event.fprintf (m ++ "\n")]
      | none => []) ++
    [Event.fprintf ("Usage: " ++ program_name ++ " <port>\n"), Event.exit exit_code])

/-- What `parse_arguments` leaves: a value in `*port`, or the process ended. -/
inductive Parsed where
  | port (value : Nat)
  | exited (code : Int)
  deriving DecidableEq, Repr

/-- The function `parse_arguments(argc, argv, &port)` with `argc = argv.length`: either the process ends
with the given status, or `*port` receives the value. `in_port_t` is 16 bits wide. -/
def parse_arguments (argv : List String) : Parsed × List Event :=
  if argv.length ≠ 2 then
    let u := usage (argv.getD 0 "") EXIT_FAILURE (some "Usage: <port>")
    match u.1 with
    | Flow.exited code => (Parsed.exited code, u.2)
    | Flow.returned => (Parsed.port ((atoi (argv.getD 1 "")) % 65536).toNat, u.2)
  else (Parsed.port ((atoi (argv.getD 1 "")) % 65536).toNat, [])

/-! ## Specification-side notions -/

/-- A byte in `'a'..'z'` or `'A'..'Z'`. -/
def is_ascii_letter (b : Byte) : Bool :=
  (97 ≤ b.val && b.val ≤ 122) || (65 ≤ b.val && b.val ≤ 90)

/-- The number of ASCII letters in a byte stream. -/
def letters (stream : List Byte) : Nat := stream.countP is_ascii_letter

/-- The number a string of ASCII decimal digits denotes. -/
def decimal_value (text : List Byte) : Nat :=
  text.foldl (fun v b => 10 * v + (b.val - 48)) 0

/-- The ASCII digit for `d`. -/
def digit_byte (d : Nat) : Byte := Fin.ofNat (48 + d)

/-- The results of the `read` calls on a connection that delivers `chunks`, one per call,
and whose next `read` returns `last`. -/
def delivery (chunks : List (List Byte)) (last : ReadResult) : List ReadResult :=
  chunks.map ReadResult.data ++ [last]

/-- Any `accept` call that has returned. -/
def is_accept : Event → Bool
  | Event.accept _ _ => true
  | _ => false

/-- The number of `accept` calls that have been made and have not returned yet. -/
def pending_accept (c : Controller) : Nat :=
  match c.loc with
  | Loc.in_accept => 1
  | _ => 0

/-! ## Counting -/

theorem wrap_int_of_range (x : Int) (h1 : -2147483648 ≤ x) (h2 : x < 2147483648) :
    wrap_int x = x := by
  unfold wrap_int; omega

theorem wrap_int_add_left (x k : Int) : wrap_int (wrap_int x + k) = wrap_int (x + k) := by
  unfold wrap_int; omega

theorem wrap_int_range (x : Int) : -2147483648 ≤ wrap_int x ∧ wrap_int x < 2147483648 := by
  unfold wrap_int; omega

theorem letter_test_as_char (b : Byte) : letter_test (as_char b) = is_ascii_letter b := by
  obtain ⟨v, hv⟩ := b
  unfold letter_test as_char is_ascii_letter
  by_cases h : v < 128
  · simp only [h, if_true]
    rw [Bool.eq_iff_iff]
    simp only [Bool.or_eq_true, Bool.and_eq_true, decide_eq_true_eq, ge_iff_le]
    omega
  · simp only [h, if_false]
    rw [Bool.eq_iff_iff]
    simp only [Bool.or_eq_true, Bool.and_eq_true, decide_eq_true_eq, ge_iff_le]
    omega

theorem letters_le_length (stream : List Byte) : letters stream ≤ stream.length :=
  List.countP_le_length _

theorem count_alphabetic_letters_succ (buffer : List Byte) (n : Nat) :
    count_alphabetic_letters buffer (n + 1) =
      if is_ascii_letter (buffer.getD n 0) then wrap_int (count_alphabetic_letters buffer n + 1)
      else count_alphabetic_letters buffer n := by
  unfold count_alphabetic_letters
  rw [List.range_succ, List.foldl_append]
  simp only [List.foldl_cons, List.foldl_nil, letter_test_as_char]

theorem letters_take_succ (buffer : List Byte) (n : Nat) (h : n < buffer.length) :
    letters (buffer.take (n + 1)) =
      letters (buffer.take n) + (if is_ascii_letter (buffer.getD n 0) then 1 else 0) := by
  unfold letters
  rw [List.take_succ, List.countP_append, List.getD_eq_getElem?_getD, List.getElem?_eq_getElem h]
  simp [List.countP_cons]

theorem count_alphabetic_letters_eq (buffer : List Byte) (n : Nat) (h : n ≤ buffer.length)
    (hn : n < 2147483648) :
    count_alphabetic_letters buffer n = (letters (buffer.take n) : Int) := by
  induction n with
  | zero => simp [count_alphabetic_letters, letters]
  | succ k ih =>
    have hk := ih (by omega) (by omega)
    have hle : letters (buffer.take k) ≤ k := by
      have := letters_le_length (buffer.take k)
      simp only [List.length_take] at this
      omega
    rw [count_alphabetic_letters_succ, letters_take_succ buffer k (by omega), hk]
    by_cases hl : is_ascii_letter (buffer.getD k 0) = true
    · simp only [hl, if_true]
      rw [wrap_int_of_range _ (by omega) (by omega)]
      push_cast; ring
    · simp only [hl, if_false]
      simp

/-! ## The reply text -/

theorem digit_byte_val (d : Nat) (h : d < 10) : (digit_byte d).val = 48 + d := by
  unfold digit_byte
  simp only [Fin.ofNat, Fin.val_mk]
  omega

theorem decimal_digits_eq (fuel n : Nat) (acc : List Byte) (hn : 0 < n) (hf : n < fuel) :
    decimal_digits fuel n acc = (Nat.digits 10 n).reverse.map digit_byte ++ acc := by
  induction fuel generalizing n acc with
  | zero => omega
  | succ f ih =>
    unfold decimal_digits
    by_cases h : n / 10 = 0
    · have hlt : n < 10 := by omega
      rw [if_pos h, Nat.digits_of_lt 10 n (by omega) hlt, Nat.mod_eq_of_lt hlt]
      rfl
    · rw [if_neg h, ih (n / 10) _ (by omega) (by omega), Nat.digits_def' (by norm_num) hn]
      simp [digit_byte]

theorem decimal_digits_zero (acc : List Byte) : decimal_digits 1 0 acc = digit_byte 0 :: acc := by
  rfl

theorem format_d_natCast (n : Nat) :
    format_d (n : Int) = if n = 0 then [digit_byte 0] else (Nat.digits 10 n).reverse.map digit_byte := by
  unfold format_d
  rw [if_neg (by omega)]
  simp only [Int.toNat_ofNat]
  by_cases h : n = 0
  · subst h; simp [decimal_digits_zero]
  · rw [if_neg h, decimal_digits_eq _ _ _ (by omega) (by omega)]; simp

theorem format_d_neg (n : Int) (h : n < 0) :
    format_d n = 45 :: (Nat.digits 10 n.natAbs).reverse.map digit_byte := by
  unfold format_d
  rw [if_pos h, decimal_digits_eq _ _ _ (by omega) (by omega)]; simp

theorem decimal_value_digits (L : List Nat) (h : ∀ d ∈ L, d < 10) :
    decimal_value (L.reverse.map digit_byte) = Nat.ofDigits 10 L := by
  induction L with
  | nil => simp [decimal_value]
  | cons d ds ih =>
    have hd : d < 10 := h d (List.mem_cons_self _ _)
    have ih' := ih (fun x hx => h x (List.mem_cons_of_mem _ hx))
    unfold decimal_value at ih' ⊢
    rw [List.reverse_cons, List.map_append, List.foldl_append, ih']
    simp only [List.map_cons, List.map_nil, List.foldl_cons, List.foldl_nil, Nat.ofDigits_cons,
      digit_byte_val d hd]
    simp; ring

theorem format_d_digits (n : Nat) : ∀ b ∈ format_d (n : Int), 48 ≤ b.val ∧ b.val ≤ 57 := by
  intro b hb
  rw [format_d_natCast] at hb
  by_cases h : n = 0
  · rw [if_pos h] at hb
    simp only [List.mem_singleton] at hb
    subst hb; decide
  · rw [if_neg h] at hb
    simp only [List.mem_map, List.mem_reverse] at hb
    obtain ⟨d, hd, rfl⟩ := hb
    have := Nat.digits_lt_base (by norm_num : 1 < 10) hd
    rw [digit_byte_val d this]; omega

theorem format_d_value (n : Nat) : decimal_value (format_d (n : Int)) = n := by
  rw [format_d_natCast]
  by_cases h : n = 0
  · subst h; decide
  · rw [if_neg h, decimal_value_digits _ (fun d hd => Nat.digits_lt_base (by norm_num) hd),
      Nat.ofDigits_digits]

theorem format_d_ne_nil (n : Nat) : format_d (n : Int) ≠ [] := by
  rw [format_d_natCast]
  by_cases h : n = 0
  · rw [if_pos h]; simp
  · rw [if_neg h]
    simp [Nat.digits_ne_nil_iff_ne_zero, h]

theorem format_d_leading (n : Nat) (h0 : (format_d (n : Int)).head? = some 48) :
    format_d (n : Int) = [48] := by
  rw [format_d_natCast] at h0 ⊢
  by_cases h : n = 0
  · rw [if_pos h]; rfl
  · exfalso
    rw [if_neg h] at h0
    have hne : Nat.digits 10 n ≠ [] := by simp [Nat.digits_ne_nil_iff_ne_zero, h]
    have hlast := Nat.getLast_digit_ne_zero 10 h
    have hlt := Nat.digits_lt_base (by norm_num : 1 < 10) (List.getLast_mem hne)
    rw [List.head?_map, List.head?_reverse, List.getLast?_eq_getLast _ hne] at h0
    simp only [Option.map_some', Option.some.injEq] at h0
    have := congrArg Fin.val h0
    rw [digit_byte_val _ hlt] at this
    have h48 : ((48 : Byte) : Nat) = 48 := rfl
    omega

theorem digits_length_le (n : Nat) (h : n ≤ 2147483648) : (Nat.digits 10 n).length ≤ 10 := by
  have := Nat.le_digits_len_le 10 n 2147483648 h
  have h2 : (Nat.digits 10 2147483648).length = 10 := by norm_num
  omega

theorem format_d_length (n : Int) (h1 : -2147483648 ≤ n) (h2 : n < 2147483648) :
    (format_d n).length ≤ 11 := by
  by_cases h : n < 0
  · rw [format_d_neg n h]
    have := digits_length_le n.natAbs (by omega)
    simp; omega
  · obtain ⟨m, rfl⟩ := Int.eq_ofNat_of_zero_le (by omega : 0 ≤ n)
    rw [format_d_natCast]
    have := digits_length_le m (by omega)
    split
    · simp
    · simp; omega

theorem format_d_no_nul (n : Int) : ∀ b ∈ format_d n, b ≠ 0 := by
  intro b hb
  by_cases h : n < 0
  · rw [format_d_neg n h] at hb
    simp only [List.mem_cons, List.mem_map, List.mem_reverse] at hb
    rcases hb with rfl | ⟨d, hd, rfl⟩
    · decide
    · have := Nat.digits_lt_base (by norm_num : 1 < 10) hd
      intro h0
      have := congrArg Fin.val h0
      rw [digit_byte_val d ‹_›] at this
      simp at this
  · obtain ⟨m, rfl⟩ := Int.eq_ofNat_of_zero_le (by omega : 0 ≤ n)
    have := format_d_digits m b hb
    intro h0; subst h0; simp at this

theorem response_payload (n : Int) (h1 : -2147483648 ≤ n) (h2 : n < 2147483648) :
    (snprintf_d 64 n).take (strlen (snprintf_d 64 n)) = format_d n := by
  have hlen := format_d_length n h1 h2
  have hnz := format_d_no_nul n
  unfold snprintf_d strlen
  rw [List.take_of_length_le (by omega : (format_d n).length ≤ 64 - 1)]
  have htw : List.takeWhile (fun b => b != 0) (format_d n ++ [0]) = format_d n := by
    rw [List.takeWhile_append_of_pos]
    · simp
    · intro b hb; simpa using hnz b hb
  rw [htw]
  simp


/-! ## The read loop -/

theorem read_loop_data (fd : Int) (c : List Byte) (rest : List ReadResult) (buffer : List Byte)
    (lc : Int) (hc : 1 ≤ c.length) :
    read_loop fd (ReadResult.data c :: rest) buffer lc =
      match read_loop fd rest (c ++ buffer.drop c.length)
          (wrap_int (lc + count_alphabetic_letters (c ++ buffer.drop c.length) c.length)) with
      | none => none
      | some (last, total, calls) => some (last, total, Event.read fd c.length :: calls) := by
  have h : ((c.length : Nat) : Int) > 0 := by omega
  simp only [read_loop, ReadResult.ret, ReadResult.store, Int.toNat_ofNat, if_pos h]

theorem read_loop_last (fd : Int) (last : ReadResult) (rest : List ReadResult)
    (buffer : List Byte) (lc : Int) (hlast : last.ret ≤ 0) :
    read_loop fd (last :: rest) buffer lc = some (last.ret, lc, [Event.read fd last.ret]) := by
  have h : ¬ last.ret > 0 := by omega
  simp only [read_loop, if_neg h]

theorem read_loop_chunks (fd : Int) (chunks : List (List Byte)) (last : ReadResult)
    (rest : List ReadResult)
    (hchunks : ∀ c ∈ chunks, 1 ≤ c.length ∧ c.length ≤ MAX_BUFFER_SIZE) (hlast : last.ret ≤ 0)
    (buffer : List Byte) (x : Int) :
    read_loop fd (chunks.map ReadResult.data ++ last :: rest) buffer (wrap_int x) =
      some (last.ret, wrap_int (x + letters chunks.flatten),
        chunks.map (fun c => Event.read fd c.length) ++ [Event.read fd last.ret]) := by
  induction chunks generalizing buffer x with
  | nil =>
    rw [List.map_nil, List.nil_append, read_loop_last _ _ _ _ _ hlast]
    simp [letters]
  | cons c cs ih =>
    have hc := hchunks c (List.mem_cons_self _ _)
    unfold MAX_BUFFER_SIZE at hc
    have hcs : ∀ c' ∈ cs, 1 ≤ c'.length ∧ c'.length ≤ MAX_BUFFER_SIZE :=
      fun c' h => hchunks c' (List.mem_cons_of_mem _ h)
    have hcount : count_alphabetic_letters (c ++ buffer.drop c.length) c.length = letters c := by
      rw [count_alphabetic_letters_eq _ _ (by simp) (by omega)]
      simp
    rw [List.map_cons, List.cons_append, read_loop_data _ _ _ _ _ hc.1, hcount, wrap_int_add_left,
      ih hcs]
    simp [letters, List.countP_append, add_assoc]

theorem handle_connection_eq (fd : Int) (buffer : List Byte) (chunks : List (List Byte))
    (last : ReadResult) (hchunks : ∀ c ∈ chunks, 1 ≤ c.length ∧ c.length ≤ MAX_BUFFER_SIZE)
    (hlast : last.ret ≤ 0) (send_ret close_ret : Int) :
    handle_connection fd buffer (delivery chunks last) (SendResult.returned send_ret) close_ret =
      some
        { letter_count := wrap_int (letters chunks.flatten)
          trace := Event.free ::
            (chunks.map (fun c => Event.read fd c.length) ++ [Event.read fd last.ret]) ++
            (if last.ret < 0 then [Event.perror "Error reading from client socket"] else []) ++
            (Event.send fd (format_d (wrap_int (letters chunks.flatten)))
                (SendResult.returned send_ret) ::
              (if send_ret < 0 then [Event.perror "Failed to send response to client"] else [])) ++
            [Event.printf "Sent letter count: %d\n" (wrap_int (letters chunks.flatten))] ++
            (socket_close fd close_ret).2
          ending := (socket_close fd close_ret).1.ending } := by
  have h := read_loop_chunks fd chunks last [] hchunks hlast buffer 0
  have h0 : wrap_int 0 = 0 := by decide
  rw [h0, zero_add] at h
  have hr := wrap_int_range (letters chunks.flatten)
  unfold handle_connection delivery
  rw [h]
  simp only [response_payload _ hr.1 hr.2]

theorem handle_connection_sigpipe_eq (fd : Int) (buffer : List Byte)
    (chunks : List (List Byte)) (last : ReadResult)
    (hchunks : ∀ c ∈ chunks, 1 ≤ c.length ∧ c.length ≤ MAX_BUFFER_SIZE)
    (hlast : last.ret ≤ 0) (close_ret : Int) :
    handle_connection fd buffer (delivery chunks last) SendResult.sigpipe close_ret =
      some
        { letter_count := wrap_int (letters chunks.flatten)
          trace := Event.free ::
            (chunks.map (fun c => Event.read fd c.length) ++ [Event.read fd last.ret]) ++
            (if last.ret < 0 then [Event.perror "Error reading from client socket"] else []) ++
            [Event.send fd (format_d (wrap_int (letters chunks.flatten))) SendResult.sigpipe]
          ending := Ending.killed SIGPIPE } := by
  have h := read_loop_chunks fd chunks last [] hchunks hlast buffer 0
  have h0 : wrap_int 0 = 0 := by decide
  rw [h0, zero_add] at h
  have hr := wrap_int_range (letters chunks.flatten)
  unfold handle_connection delivery
  rw [h]
  simp only [response_payload _ hr.1 hr.2]

/-! ## The trace of a worker -/

theorem sent_payloads_worker (fd : Int) (chunks : List (List Byte)) (last : ReadResult)
    (send_ret close_ret : Int) (payload : List Byte) (n : Int) :
    sent_payloads fd
      (Event.free ::
        (chunks.map (fun c => Event.read fd c.length) ++ [Event.read fd last.ret]) ++
        (if last.ret < 0 then [Event.perror "Error reading from client socket"] else []) ++
        (Event.send fd payload (SendResult.returned send_ret) ::
          (if send_ret < 0 then [Event.perror "Failed to send response to client"] else [])) ++
        [Event.printf "Sent letter count: %d\n" n] ++ (socket_close fd close_ret).2) =
      [payload] := by
  by_cases h1 : last.ret < 0 <;> by_cases h2 : send_ret < 0 <;> by_cases h3 : close_ret = -1 <;>
    simp [sent_payloads, socket_close, h1, h2, h3, List.filterMap_cons, List.filterMap_append,
      List.filterMap_map, Function.comp_def]

theorem sent_payloads_sigpipe (fd : Int) (chunks : List (List Byte)) (last : ReadResult)
    (payload : List Byte) :
    sent_payloads fd
      (Event.free ::
        (chunks.map (fun c => Event.read fd c.length) ++ [Event.read fd last.ret]) ++
        (if last.ret < 0 then [Event.perror "Error reading from client socket"] else []) ++
        [Event.send fd payload SendResult.sigpipe]) =
      [payload] := by
  by_cases h1 : last.ret < 0 <;>
    simp [sent_payloads, h1, List.filterMap_cons, List.filterMap_append, List.filterMap_map,
      Function.comp_def]

theorem connection_ops_worker (fd : Int) (chunks : List (List Byte)) (last : ReadResult)
    (send_ret close_ret : Int) (payload : List Byte) (n : Int) :
    (Event.free ::
        (chunks.map (fun c => Event.read fd c.length) ++ [Event.read fd last.ret]) ++
        (if last.ret < 0 then [Event.perror "Error reading from client socket"] else []) ++
        (Event.send fd payload (SendResult.returned send_ret) ::
          (if send_ret < 0 then [Event.perror "Failed to send response to client"] else [])) ++
        [Event.printf "Sent letter count: %d\n" n] ++ (socket_close fd close_ret).2).filter
      (on_connection fd) =
      chunks.map (fun c => Event.read fd c.length) ++
        [Event.read fd last.ret, Event.send fd payload (SendResult.returned send_ret),
          Event.close fd close_ret] := by
  by_cases h1 : last.ret < 0 <;> by_cases h2 : send_ret < 0 <;> by_cases h3 : close_ret = -1 <;>
    simp [socket_close, h1, h2, h3, List.filter_cons, List.filter_append, List.filter_map,
      Function.comp_def, on_connection]

theorem connection_ops_sigpipe (fd : Int) (chunks : List (List Byte)) (last : ReadResult)
    (payload : List Byte) :
    (Event.free ::
        (chunks.map (fun c => Event.read fd c.length) ++ [Event.read fd last.ret]) ++
        (if last.ret < 0 then [Event.perror "Error reading from client socket"] else []) ++
        [Event.send fd payload SendResult.sigpipe]).filter (on_connection fd) =
      chunks.map (fun c => Event.read fd c.length) ++
        [Event.read fd last.ret, Event.send fd payload SendResult.sigpipe] := by
  by_cases h1 : last.ret < 0 <;>
    simp [h1, List.filter_cons, List.filter_append, List.filter_map, Function.comp_def,
      on_connection]

theorem letters_replicate (k m : Nat) (b : Byte) (hb : is_ascii_letter b = true) :
    letters (List.replicate k (List.replicate m b)).flatten = k * m := by
  unfold letters
  rw [List.countP_flatten, List.map_replicate, List.countP_replicate, if_pos hb,
    List.sum_replicate]
  simp

theorem chunks_replicate (k m : Nat) (b : Byte) (hm : 1 ≤ m ∧ m ≤ MAX_BUFFER_SIZE) :
    ∀ c ∈ List.replicate k (List.replicate m b), 1 ≤ c.length ∧ c.length ≤ MAX_BUFFER_SIZE := by
  intro c hc
  rw [List.eq_of_mem_replicate hc, List.length_replicate]
  exact hm

/-- A `send` that raises `SIGPIPE` ends the process inside the call: the worker has made the
call with the reply, and neither logs, prints nor closes afterwards. -/
theorem send_sigpipe_ends_process :
    handle_connection 5 [] (delivery [[97, 98]] (ReadResult.error 104)) SendResult.sigpipe 0 =
      some
        { letter_count := 2
          trace := [Event.free, Event.read 5 2, Event.read 5 (-1),
            Event.perror "Error reading from client socket",
            Event.send 5 [50] SendResult.sigpipe]
          ending := Ending.killed SIGPIPE } := by
  decide

/-! ## Claims about the connection worker -/

/-- C1 (amended): for every byte stream with fewer than `2 ^ 31` letters and every way of
delivering it as reads of 1 to 4096 bytes followed by a zero-length read, `handle_connection`
ends, the letter count it accumulated is the number of bytes of the stream in `'a'..'z'` or
`'A'..'Z'`, and the one payload it passes to `send` denotes that number, whatever the outcome
of the `send` and of the `close`; the chunk boundaries play no part, since the result is a
function of the concatenation of the chunks. -/
theorem handle_connection_counts_letters (fd : Int) (buffer : List Byte)
    (chunks : List (List Byte)) (send : SendResult) (close_ret : Int)
    (hchunks : ∀ c ∈ chunks, 1 ≤ c.length ∧ c.length ≤ MAX_BUFFER_SIZE)
    (hfit : letters chunks.flatten < 2147483648) :
    ∃ run, handle_connection fd buffer (delivery chunks ReadResult.eof) send close_ret = some run ∧
      run.letter_count = (letters chunks.flatten : Int) ∧
      ∃ payload, sent_payloads fd run.trace = [payload] ∧
        decimal_value payload = letters chunks.flatten := by
  have hw := wrap_int_of_range (letters chunks.flatten) (by omega) (by omega)
  cases send with
  | returned send_ret =>
    refine ⟨_, handle_connection_eq fd buffer chunks ReadResult.eof hchunks (by decide)
      send_ret close_ret, hw, ?_⟩
    refine ⟨_, sent_payloads_worker fd chunks ReadResult.eof send_ret close_ret _ _, ?_⟩
    rw [hw, format_d_value]
  | sigpipe =>
    refine ⟨_, handle_connection_sigpipe_eq fd buffer chunks ReadResult.eof hchunks (by decide)
      close_ret, hw, ?_⟩
    refine ⟨_, sent_payloads_sigpipe fd chunks ReadResult.eof _, ?_⟩
    rw [hw, format_d_value]

/-- The stream `"ab1 CD!"`, delivered as `"ab1"` and `" CD!"`, meets the conditions of C1. -/
theorem handle_connection_counts_letters_witness :
    (∀ c ∈ ([[97, 98, 49], [32, 67, 68, 33]] : List (List Byte)),
      1 ≤ c.length ∧ c.length ≤ MAX_BUFFER_SIZE) ∧
    letters ([[97, 98, 49], [32, 67, 68, 33]] : List (List Byte)).flatten < 2147483648 ∧
    letters ([[97, 98, 49], [32, 67, 68, 33]] : List (List Byte)).flatten = 4 ∧
    ∃ run, handle_connection 5 [] (delivery [[97, 98, 49], [32, 67, 68, 33]] ReadResult.eof)
        (SendResult.returned 1) 0 = some run ∧
      run.letter_count = (letters ([[97, 98, 49], [32, 67, 68, 33]] : List (List Byte)).flatten : Int) ∧
      ∃ payload, sent_payloads 5 run.trace = [payload] ∧
        decimal_value payload = letters ([[97, 98, 49], [32, 67, 68, 33]] : List (List Byte)).flatten :=
  ⟨by decide, by decide, by decide,
    handle_connection_counts_letters 5 [] [[97, 98, 49], [32, 67, 68, 33]] (SendResult.returned 1)
      0 (by decide) (by decide)⟩

/-- C1 as stated fails: a stream of `2 ^ 31` letters `a`, delivered in 524288 reads of 4096
bytes and a zero-length read, leaves `letter_count` at `-2147483648`. -/
theorem handle_connection_count_overflows :
    (∀ c ∈ List.replicate 524288 (List.replicate 4096 (97 : Byte)),
      1 ≤ c.length ∧ c.length ≤ MAX_BUFFER_SIZE) ∧
    letters (List.replicate 524288 (List.replicate 4096 (97 : Byte))).flatten = 2147483648 ∧
    (handle_connection 4 (List.replicate 4096 0)
        (delivery (List.replicate 524288 (List.replicate 4096 97)) ReadResult.eof)
        (SendResult.returned 11) 0).map
      (fun run => run.letter_count) = some (-2147483648) := by
  have hc := chunks_replicate 524288 4096 (97 : Byte) (by decide)
  have hl := letters_replicate 524288 4096 (97 : Byte) (by decide)
  refine ⟨hc, by rw [hl], ?_⟩
  rw [handle_connection_eq 4 _ _ ReadResult.eof hc (by decide) 11 0, hl]
  decide

/-- C2 (amended): for every byte stream with fewer than `2 ^ 31` letters, whether the reads end
with a zero-length read or with an error, and whatever the outcome of the `send`, the worker
makes one `send` whose payload is the natural decimal representation of the letter count: it
is not empty, consists only of the digits `'0'..'9'` (so it has no sign, no newline and no NUL,
and its length is the number of digits), has no leading zero unless it is exactly `"0"`, and
denotes the letter count; for empty input it is `"0"`. -/
theorem reply_is_decimal_count (fd : Int) (buffer : List Byte) (chunks : List (List Byte))
    (last : ReadResult) (send : SendResult) (close_ret : Int)
    (hchunks : ∀ c ∈ chunks, 1 ≤ c.length ∧ c.length ≤ MAX_BUFFER_SIZE)
    (hlast : last.ret ≤ 0) (hfit : letters chunks.flatten < 2147483648) :
    ∃ run payload,
      handle_connection fd buffer (delivery chunks last) send close_ret = some run ∧
      sent_payloads fd run.trace = [payload] ∧
      payload ≠ [] ∧
      (∀ b ∈ payload, 48 ≤ b.val ∧ b.val ≤ 57) ∧
      (payload.head? = some 48 → payload = [48]) ∧
      decimal_value payload = letters chunks.flatten ∧
      (chunks = [] → payload = [48]) := by
  have hw := wrap_int_of_range (letters chunks.flatten) (by omega) (by omega)
  have hfmt : format_d (letters chunks.flatten : Int) ≠ [] ∧
      (∀ b ∈ format_d (letters chunks.flatten : Int), 48 ≤ b.val ∧ b.val ≤ 57) ∧
      ((format_d (letters chunks.flatten : Int)).head? = some 48 →
        format_d (letters chunks.flatten : Int) = [48]) ∧
      decimal_value (format_d (letters chunks.flatten : Int)) = letters chunks.flatten ∧
      (chunks = [] → format_d (letters chunks.flatten : Int) = [48]) := by
    refine ⟨format_d_ne_nil _, format_d_digits _, format_d_leading _, format_d_value _, ?_⟩
    intro h
    subst h
    decide
  cases send with
  | returned send_ret =>
    refine ⟨_, _, handle_connection_eq fd buffer chunks last hchunks hlast send_ret close_ret,
      sent_payloads_worker fd chunks last send_ret close_ret _ _, ?_⟩
    rw [hw]
    exact hfmt
  | sigpipe =>
    refine ⟨_, _, handle_connection_sigpipe_eq fd buffer chunks last hchunks hlast close_ret,
      sent_payloads_sigpipe fd chunks last _, ?_⟩
    rw [hw]
    exact hfmt

/-- The stream `"ab1 CD!"`, delivered in two reads, meets the conditions of C2. -/
theorem reply_is_decimal_count_witness :
    (∀ c ∈ ([[97, 98, 49, 32], [67, 68, 33]] : List (List Byte)),
      1 ≤ c.length ∧ c.length ≤ MAX_BUFFER_SIZE) ∧
    ReadResult.eof.ret ≤ 0 ∧
    letters ([[97, 98, 49, 32], [67, 68, 33]] : List (List Byte)).flatten < 2147483648 ∧
    ∃ run payload,
      handle_connection 6 [] (delivery [[97, 98, 49, 32], [67, 68, 33]] ReadResult.eof)
        (SendResult.returned 1) 0 = some run ∧
      sent_payloads 6 run.trace = [payload] ∧
      payload ≠ [] ∧
      (∀ b ∈ payload, 48 ≤ b.val ∧ b.val ≤ 57) ∧
      (payload.head? = some 48 → payload = [48]) ∧
      decimal_value payload = letters ([[97, 98, 49, 32], [67, 68, 33]] : List (List Byte)).flatten ∧
      (([[97, 98, 49, 32], [67, 68, 33]] : List (List Byte)) = [] → payload = [48]) :=
  ⟨by decide, by decide, by decide,
    reply_is_decimal_count 6 [] [[97, 98, 49, 32], [67, 68, 33]] ReadResult.eof
      (SendResult.returned 1) 0 (by decide) (by decide) (by decide)⟩

/-- C2 as stated fails: after a stream of `2 ^ 31` letters `Z` the payload of the `send` is
`"-2147483648"`, which starts with a sign. -/
theorem reply_has_sign_after_overflow :
    (handle_connection 4 (List.replicate 4096 0)
        (delivery (List.replicate 524288 (List.replicate 4096 90)) ReadResult.eof)
        (SendResult.returned 11) 0).map
      (fun run => sent_payloads 4 run.trace) =
      some [[45, 50, 49, 52, 55, 52, 56, 51, 54, 52, 56]] := by
  have hc := chunks_replicate 524288 4096 (90 : Byte) (by decide)
  have hl := letters_replicate 524288 4096 (90 : Byte) (by decide)
  rw [handle_connection_eq 4 _ _ ReadResult.eof hc (by decide) 11 0, Option.map_some',
    sent_payloads_worker, hl]
  decide

/-- C3 (amended): when reads of 1 to 4096 bytes holding fewer than `2 ^ 31` letters are
followed by a read that fails, `handle_connection` makes no further read, logs the error, and
still calls `send` once with a reply that denotes the letter count of exactly the bytes the
successful reads returned; the operations on the connection are those reads, the failed read
and the `send`, in this order, followed by the `close` whenever the `send` returns. -/
theorem reply_after_read_error (fd : Int) (buffer : List Byte) (chunks : List (List Byte))
    (errno : Int) (send : SendResult) (close_ret : Int)
    (hchunks : ∀ c ∈ chunks, 1 ≤ c.length ∧ c.length ≤ MAX_BUFFER_SIZE)
    (hfit : letters chunks.flatten < 2147483648) :
    ∃ run payload,
      handle_connection fd buffer (delivery chunks (ReadResult.error errno)) send close_ret =
        some run ∧
      run.trace.filter (on_connection fd) =
        chunks.map (fun c => Event.read fd c.length) ++
          (Event.read fd (-1) :: Event.send fd payload send ::
            match send with
            | SendResult.returned _ => [Event.close fd close_ret]
            | SendResult.sigpipe => []) ∧
      Event.perror "Error reading from client socket" ∈ run.trace ∧
      run.letter_count = (letters chunks.flatten : Int) ∧
      payload = format_d (letters chunks.flatten) ∧
      decimal_value payload = letters chunks.flatten := by
  have hlast : (ReadResult.error errno).ret ≤ 0 := by simp [ReadResult.ret]
  have hw := wrap_int_of_range (letters chunks.flatten) (by omega) (by omega)
  cases send with
  | returned send_ret =>
    refine ⟨_, _, handle_connection_eq fd buffer chunks (ReadResult.error errno) hchunks
      hlast send_ret close_ret,
      connection_ops_worker fd chunks (ReadResult.error errno) send_ret close_ret _ _,
      ?_, hw, ?_, ?_⟩
    · simp [ReadResult.ret]
    · rw [hw]
    · rw [hw, format_d_value]
  | sigpipe =>
    refine ⟨_, _, handle_connection_sigpipe_eq fd buffer chunks (ReadResult.error errno) hchunks
      hlast close_ret,
      connection_ops_sigpipe fd chunks (ReadResult.error errno) _, ?_, hw, ?_, ?_⟩
    · simp [ReadResult.ret]
    · rw [hw]
    · rw [hw, format_d_value]

/-- The reads `"ab1"`, `" CD!"` followed by a read that fails with `EINTR` meet the conditions
of C3. -/
theorem reply_after_read_error_witness :
    (∀ c ∈ ([[97, 98, 49], [32, 67, 68, 33]] : List (List Byte)),
      1 ≤ c.length ∧ c.length ≤ MAX_BUFFER_SIZE) ∧
    letters ([[97, 98, 49], [32, 67, 68, 33]] : List (List Byte)).flatten < 2147483648 ∧
    ∃ run payload,
      handle_connection 7 [] (delivery [[97, 98, 49], [32, 67, 68, 33]] (ReadResult.error 4))
        (SendResult.returned 1) 0 = some run ∧
      run.trace.filter (on_connection 7) =
        ([[97, 98, 49], [32, 67, 68, 33]] : List (List Byte)).map
            (fun c => Event.read 7 c.length) ++
          (Event.read 7 (-1) :: Event.send 7 payload (SendResult.returned 1) ::
            [Event.close 7 0]) ∧
      Event.perror "Error reading from client socket" ∈ run.trace ∧
      run.letter_count = (letters ([[97, 98, 49], [32, 67, 68, 33]] : List (List Byte)).flatten : Int) ∧
      payload = format_d (letters ([[97, 98, 49], [32, 67, 68, 33]] : List (List Byte)).flatten) ∧
      decimal_value payload = letters ([[97, 98, 49], [32, 67, 68, 33]] : List (List Byte)).flatten :=
  ⟨by decide, by decide,
    reply_after_read_error 7 [] [[97, 98, 49], [32, 67, 68, 33]] 4 (SendResult.returned 1) 0
      (by decide) (by decide)⟩

/-- C3 as stated fails: when 524288 reads of 4096 letters `q` are followed by a failing read,
the count the worker holds and replies with is `-2147483648`, not the `2 ^ 31` letters read. -/
theorem reply_after_read_error_overflows :
    letters (List.replicate 524288 (List.replicate 4096 (113 : Byte))).flatten = 2147483648 ∧
    (handle_connection 4 (List.replicate 4096 0)
        (delivery (List.replicate 524288 (List.replicate 4096 113)) (ReadResult.error 4))
        (SendResult.returned 11) 0).map
      (fun run => (run.letter_count, sent_payloads 4 run.trace)) =
      some (-2147483648, [format_d (-2147483648)]) := by
  have hc := chunks_replicate 524288 4096 (113 : Byte) (by decide)
  have hl := letters_replicate 524288 4096 (113 : Byte) (by decide)
  refine ⟨by rw [hl], ?_⟩
  rw [handle_connection_eq 4 _ _ (ReadResult.error 4) hc (by decide) 11 0, Option.map_some',
    sent_payloads_worker, hl]
  decide

theorem loop_body_counts (server_fd : Int) (env : IterationEnv) :
    (loop_body server_fd env).2.countP is_accept = 1 ∧
    (loop_body server_fd env).2.countP is_accepted ≤ 1 ∧
    (loop_body server_fd env).2.countP is_dispatch ≤ 1 := by
  obtain ⟨a, e, m, p, c⟩ := env
  by_cases h1 : a = -1 <;> by_cases h2 : e = EINTR <;> cases m <;> by_cases h4 : p = 0 <;>
    by_cases h5 : c = -1 <;>
    simp [loop_body, socket_accept_connection, socket_close, h1, h2, h4, h5, List.countP_cons,
      is_accept, is_accepted, is_dispatch]

/-- C5 as stated fails: when `close` fails, the worker ends the whole process with
`EXIT_FAILURE` instead of returning, and so does the controller when it closes a connection it
could not hand to a worker. -/
theorem close_failure_ends_process :
    (handle_connection 5 [] (delivery [[97]] ReadResult.eof) (SendResult.returned 1) (-1)).map
        (fun run => run.ending) =
      some (Ending.exited EXIT_FAILURE) ∧
    (loop_body 3 ⟨5, 0, false, 0, -1⟩).1 = Flow.exited EXIT_FAILURE ∧
    step 3 ⟨Loc.in_accept, 0, []⟩ (Step.accept_result ⟨5, 0, false, 0, -1⟩) =
      some ⟨Loc.done EXIT_FAILURE, 0,
        [Event.accept 3 5, Event.malloc false,
          Event.perror "Failed to allocate memory for client socket", Event.close 5 (-1),
          Event.perror "Error closing socket", Event.exit EXIT_FAILURE]⟩ := by
  decide

/-- C5 (amended): whenever the `send` of a connection returns to the worker and the `close`
calls made for the connection succeed, the server goes on: for every result of the reads and
every value the `send` returns, the worker returns without calling `exit`, and for every
result of `accept`, `malloc` and `pthread_create` the controller's pass through the loop body
returns without calling `exit` and the controller is back at the flag check. A `send` that
does not return, because it raises `SIGPIPE`, is outside this statement. -/
theorem connection_faults_contained (server_fd fd : Int) (buffer : List Byte)
    (chunks : List (List Byte)) (last : ReadResult) (send_ret close_ret : Int)
    (env : IterationEnv) (exit_flag : Int) (trace : List Event)
    (hchunks : ∀ c ∈ chunks, 1 ≤ c.length ∧ c.length ≤ MAX_BUFFER_SIZE)
    (hlast : last.ret ≤ 0) (hclose : close_ret ≠ -1) (henv : env.close_ret ≠ -1) :
    (∃ run, handle_connection fd buffer (delivery chunks last) (SendResult.returned send_ret)
        close_ret = some run ∧
      run.ending = Ending.returned ∧ run.trace.countP is_exit = 0) ∧
    (loop_body server_fd env).1 = Flow.returned ∧
    (loop_body server_fd env).2.countP is_exit = 0 ∧
    step server_fd ⟨Loc.in_accept, exit_flag, trace⟩ (Step.accept_result env) =
      some ⟨Loc.loop_head, exit_flag, trace ++ (loop_body server_fd env).2⟩ := by
  have hbody : (loop_body server_fd env).1 = Flow.returned ∧
      (loop_body server_fd env).2.countP is_exit = 0 := by
    obtain ⟨a, e, m, p, c⟩ := env
    simp only at henv
    by_cases h1 : a = -1 <;> by_cases h2 : e = EINTR <;> cases m <;> by_cases h4 : p = 0 <;>
      simp [loop_body, socket_accept_connection, socket_close, h1, h2, h4, henv,
        List.countP_cons, is_exit]
  refine ⟨⟨_, handle_connection_eq fd buffer chunks last hchunks hlast send_ret close_ret, ?_, ?_⟩,
    hbody.1, hbody.2, ?_⟩
  · simp [socket_close, hclose, Flow.ending]
  · by_cases h1 : last.ret < 0 <;> by_cases h2 : send_ret < 0 <;>
      simp [socket_close, hclose, h1, h2, List.countP_cons, List.countP_append, List.countP_map,
        Function.comp_def, is_exit, List.countP_eq_zero]
  · simp [step, hbody.1]

/-- A connection whose read is interrupted (`EINTR`) and whose `send` returns, and a pass in
which `malloc` fails, with `close` succeeding in both, meet the conditions of C5. -/
theorem connection_faults_contained_witness :
    (∀ c ∈ ([[97, 98]] : List (List Byte)), 1 ≤ c.length ∧ c.length ≤ MAX_BUFFER_SIZE) ∧
    (ReadResult.error 4).ret ≤ 0 ∧ (0 : Int) ≠ -1 ∧
    (⟨5, 0, false, 0, 0⟩ : IterationEnv).close_ret ≠ -1 ∧
    ((∃ run, handle_connection 5 [] (delivery [[97, 98]] (ReadResult.error 4))
        (SendResult.returned 1) 0 = some run ∧
      run.ending = Ending.returned ∧ run.trace.countP is_exit = 0) ∧
    (loop_body 3 ⟨5, 0, false, 0, 0⟩).1 = Flow.returned ∧
    (loop_body 3 ⟨5, 0, false, 0, 0⟩).2.countP is_exit = 0 ∧
    step 3 ⟨Loc.in_accept, 0, []⟩ (Step.accept_result ⟨5, 0, false, 0, 0⟩) =
      some ⟨Loc.loop_head, 0, [] ++ (loop_body 3 ⟨5, 0, false, 0, 0⟩).2⟩) :=
  ⟨by decide, by decide, by decide, by decide,
    connection_faults_contained 3 5 [] [[97, 98]] (ReadResult.error 4) 1 0
      ⟨5, 0, false, 0, 0⟩ 0 [] (by decide) (by decide) (by decide) (by decide)⟩

/-- C6: for every error code with which `accept` fails, the pass through the loop body returns
to the flag check without ending the process, starts no worker, closes nothing, and logs the
failure exactly when the error is not `EINTR`. -/
theorem failed_accept_continues (server_fd errno : Int) (malloc_ok : Bool)
    (pthread_create_ret close_ret exit_flag : Int) (trace : List Event) :
    (loop_body server_fd ⟨-1, errno, malloc_ok, pthread_create_ret, close_ret⟩).1 =
      Flow.returned ∧
    (loop_body server_fd ⟨-1, errno, malloc_ok, pthread_create_ret, close_ret⟩).2 =
      Event.accept server_fd (-1) ::
        (if errno ≠ EINTR then [Event.perror "Accept failed"] else []) ∧
    (loop_body server_fd ⟨-1, errno, malloc_ok, pthread_create_ret, close_ret⟩).2.countP
      is_dispatch = 0 ∧
    (loop_body server_fd ⟨-1, errno, malloc_ok, pthread_create_ret, close_ret⟩).2.countP
      is_close = 0 ∧
    (loop_body server_fd ⟨-1, errno, malloc_ok, pthread_create_ret, close_ret⟩).2.countP
      is_exit = 0 ∧
    ((∃ e ∈ (loop_body server_fd ⟨-1, errno, malloc_ok, pthread_create_ret, close_ret⟩).2,
        is_log e = true) ↔ errno ≠ EINTR) ∧
    step server_fd ⟨Loc.in_accept, exit_flag, trace⟩
        (Step.accept_result ⟨-1, errno, malloc_ok, pthread_create_ret, close_ret⟩) =
      some ⟨Loc.loop_head, exit_flag,
        trace ++ Event.accept server_fd (-1) ::
          (if errno ≠ EINTR then [Event.perror "Accept failed"] else [])⟩ := by
  by_cases h : errno = EINTR <;>
    simp [step, loop_body, socket_accept_connection, h, List.countP_cons, is_dispatch, is_close,
      is_exit, is_log]

/-- C10: in a pass through the loop body in which `accept` returned a connection, for every
outcome of `malloc`, `pthread_create` and `close`, either one worker is started for the
connection and the controller does not close it, or no worker is started and the controller
closes it exactly once; a worker is started exactly when `malloc` and `pthread_create`
succeed. -/
theorem connection_disposed_once (server_fd : Int) (env : IterationEnv)
    (h : env.accept_ret ≠ -1) :
    (((loop_body server_fd env).2.countP is_dispatch = 1 ∧
        Event.pthread_create env.accept_ret 0 ∈ (loop_body server_fd env).2 ∧
        (loop_body server_fd env).2.countP is_close = 0) ∨
      ((loop_body server_fd env).2.countP is_dispatch = 0 ∧
        (loop_body server_fd env).2.countP (is_close_of env.accept_ret) = 1 ∧
        (loop_body server_fd env).2.countP is_close = 1)) ∧
    ((loop_body server_fd env).2.countP is_dispatch = 1 ↔
      (env.malloc_ok = true ∧ env.pthread_create_ret = 0)) := by
  obtain ⟨a, e, m, p, c⟩ := env
  simp only at h
  cases m <;> by_cases h4 : p = 0 <;> by_cases h5 : c = -1 <;>
    simp [loop_body, socket_accept_connection, socket_close, h, h4, h5, List.countP_cons,
      is_dispatch, is_close, is_close_of]

/-- An accepted connection 7 whose thread cannot be created meets the condition of C10. -/
theorem connection_disposed_once_witness :
    (⟨7, 0, true, 11, 0⟩ : IterationEnv).accept_ret ≠ -1 ∧
    ((((loop_body 3 ⟨7, 0, true, 11, 0⟩).2.countP is_dispatch = 1 ∧
        Event.pthread_create (⟨7, 0, true, 11, 0⟩ : IterationEnv).accept_ret 0 ∈
          (loop_body 3 ⟨7, 0, true, 11, 0⟩).2 ∧
        (loop_body 3 ⟨7, 0, true, 11, 0⟩).2.countP is_close = 0) ∨
      ((loop_body 3 ⟨7, 0, true, 11, 0⟩).2.countP is_dispatch = 0 ∧
        (loop_body 3 ⟨7, 0, true, 11, 0⟩).2.countP
          (is_close_of (⟨7, 0, true, 11, 0⟩ : IterationEnv).accept_ret) = 1 ∧
        (loop_body 3 ⟨7, 0, true, 11, 0⟩).2.countP is_close = 1)) ∧
    ((loop_body 3 ⟨7, 0, true, 11, 0⟩).2.countP is_dispatch = 1 ↔
      ((⟨7, 0, true, 11, 0⟩ : IterationEnv).malloc_ok = true ∧
        (⟨7, 0, true, 11, 0⟩ : IterationEnv).pthread_create_ret = 0))) :=
  ⟨by decide, connection_disposed_once 3 ⟨7, 0, true, 11, 0⟩ (by decide)⟩


/-! ## Claims about the lifecycle -/

theorem after_loop_counts (server_fd close_ret : Int) :
    (after_loop server_fd close_ret).2.countP is_accept = 0 ∧
    (after_loop server_fd close_ret).2.countP is_accepted = 0 ∧
    (after_loop server_fd close_ret).2.countP is_dispatch = 0 := by
  by_cases h : close_ret = -1 <;>
    simp [after_loop, socket_close, h, List.countP_cons, is_accept, is_accepted, is_dispatch]

theorem step_draining (server_fd : Int) (c c' : Controller) (s : Step)
    (h : step server_fd c s = some c') (hf : c.exit_flag ≠ 0) :
    c'.exit_flag ≠ 0 ∧ ∃ added, c'.trace = c.trace ++ added ∧
      added.countP is_accept + pending_accept c' ≤ pending_accept c ∧
      added.countP is_accepted + pending_accept c' ≤ pending_accept c ∧
      added.countP is_dispatch + pending_accept c' ≤ pending_accept c := by
  obtain ⟨loc, flag, trace⟩ := c
  simp only at hf
  cases s with
  | signal =>
    cases loc <;> simp [step, sigint_handler] at h
    all_goals
      subst h
      refine ⟨?_, [], ?_, ?_, ?_, ?_⟩ <;> simp [pending_accept]
  | flag_check close_ret =>
    cases loc <;> simp [step, hf] at h
    subst h
    have hc := after_loop_counts server_fd close_ret
    exact ⟨hf, _, rfl, by simp [pending_accept, hc.1], by simp [pending_accept, hc.2.1],
      by simp [pending_accept, hc.2.2]⟩
  | accept_result env =>
    have hc := loop_body_counts server_fd env
    cases loc <;> simp [step] at h
    cases hb : (loop_body server_fd env).1 <;> rw [hb] at h <;> simp at h <;> subst h
    all_goals
      refine ⟨hf, _, rfl, ?_, ?_, ?_⟩ <;> simp [pending_accept] <;> omega

theorem run_draining (server_fd : Int) (steps : List Step) (c c' : Controller)
    (h : run server_fd c steps = some c') (hf : c.exit_flag ≠ 0) :
    c'.exit_flag ≠ 0 ∧ ∃ added, c'.trace = c.trace ++ added ∧
      added.countP is_accept + pending_accept c' ≤ pending_accept c ∧
      added.countP is_accepted + pending_accept c' ≤ pending_accept c ∧
      added.countP is_dispatch + pending_accept c' ≤ pending_accept c := by
  induction steps generalizing c with
  | nil =>
    simp only [run, Option.some.injEq] at h
    subst h
    exact ⟨hf, [], by simp, by simp, by simp, by simp⟩
  | cons s rest ih =>
    simp only [run] at h
    cases hs : step server_fd c s with
    | none => rw [hs] at h; simp at h
    | some c1 =>
      rw [hs] at h
      obtain ⟨hf1, a1, ht1, h1, h2, h3⟩ := step_draining server_fd c c1 s hs hf
      obtain ⟨hf2, a2, ht2, g1, g2, g3⟩ := ih c1 h hf1
      refine ⟨hf2, a1 ++ a2, by rw [ht2, ht1, List.append_assoc], ?_, ?_, ?_⟩ <;>
        rw [List.countP_append] <;> omega

/-- C7 as stated fails: the signal can be delivered between the flag check and the return of
`accept`; the flag is then set, and the pending `accept` still returns connection 7, for which
a worker is started. -/
theorem accept_after_signal :
    run 3 Controller.init [Step.flag_check 0, Step.signal] = some ⟨Loc.in_accept, 1, []⟩ ∧
    step 3 ⟨Loc.in_accept, 1, []⟩ (Step.accept_result ⟨7, 0, true, 0, 0⟩) =
      some ⟨Loc.loop_head, 1,
        [Event.accept 3 7, Event.malloc true, Event.pthread_create 7 0, Event.pthread_detach]⟩ := by
  decide

/-- C7 (amended): every delivery of the signal leaves the termination flag set, and in every
run of the controller that starts in a state where the flag is set, the flag is still set at
the end and the controller is not back in RUNNING; at most one `accept` returns in the whole
run and at most one worker is started, and this can only be the `accept` that had already been
called when the run started: if none was pending, no `accept` returns and no worker is
started. -/
theorem no_new_accept_after_signal (server_fd : Int) (c c' : Controller) (steps : List Step)
    (hflag : c.exit_flag ≠ 0) (hrun : run server_fd c steps = some c') :
    (∀ c0 c1, step server_fd c0 Step.signal = some c1 → c1.exit_flag ≠ 0) ∧
    c'.exit_flag ≠ 0 ∧ c'.phase ≠ Phase.RUNNING ∧
    ∃ added, c'.trace = c.trace ++ added ∧
      added.countP is_accept ≤ 1 ∧ added.countP is_accepted ≤ 1 ∧
      added.countP is_dispatch ≤ 1 ∧
      (c.loc ≠ Loc.in_accept →
        added.countP is_accept = 0 ∧ added.countP is_accepted = 0 ∧
          added.countP is_dispatch = 0) := by
  obtain ⟨hf, added, ht, h1, h2, h3⟩ := run_draining server_fd steps c c' hrun hflag
  have hp : pending_accept c ≤ 1 := by
    unfold pending_accept; split <;> simp
  refine ⟨?_, hf, ?_, added, ht, by omega, by omega, by omega, ?_⟩
  · intro c0 c1 hs
    obtain ⟨loc, flag, trace⟩ := c0
    cases loc <;> simp [step, sigint_handler] at hs <;> subst hs <;> simp
  · unfold Controller.phase
    split
    · simp
    · simp [hf]
  · intro hloc
    have h0 : pending_accept c = 0 := by
      unfold pending_accept; split
      · contradiction
      · rfl
    omega

/-- A run in which the signal arrives while `accept` is pending, the `accept` then fails with
`EINTR`, and the loop ends, meets the conditions of C7. -/
theorem no_new_accept_after_signal_witness :
    (⟨Loc.in_accept, 1, []⟩ : Controller).exit_flag ≠ 0 ∧
    run 3 ⟨Loc.in_accept, 1, []⟩ [Step.accept_result ⟨-1, 4, false, 0, 0⟩, Step.flag_check 0] =
      some ⟨Loc.done 0, 1, [Event.accept 3 (-1), Event.close 3 0]⟩ ∧
    ((∀ c0 c1, step 3 c0 Step.signal = some c1 → c1.exit_flag ≠ 0) ∧
      (⟨Loc.done 0, 1, [Event.accept 3 (-1), Event.close 3 0]⟩ : Controller).exit_flag ≠ 0 ∧
      (⟨Loc.done 0, 1, [Event.accept 3 (-1), Event.close 3 0]⟩ : Controller).phase ≠
        Phase.RUNNING ∧
      ∃ added,
        (⟨Loc.done 0, 1, [Event.accept 3 (-1), Event.close 3 0]⟩ : Controller).trace =
          (⟨Loc.in_accept, 1, []⟩ : Controller).trace ++ added ∧
        added.countP is_accept ≤ 1 ∧ added.countP is_accepted ≤ 1 ∧
        added.countP is_dispatch ≤ 1 ∧
        ((⟨Loc.in_accept, 1, []⟩ : Controller).loc ≠ Loc.in_accept →
          added.countP is_accept = 0 ∧ added.countP is_accepted = 0 ∧
            added.countP is_dispatch = 0)) :=
  ⟨by decide, by decide,
    no_new_accept_after_signal 3 ⟨Loc.in_accept, 1, []⟩ _
      [Step.accept_result ⟨-1, 4, false, 0, 0⟩, Step.flag_check 0] (by decide) (by decide)⟩

/-- C8 as stated fails: when the loop ends and `close` of the listening socket fails, the
process ends with `EXIT_FAILURE`. -/
theorem shutdown_close_failure_status :
    after_loop 3 (-1) =
      (EXIT_FAILURE,
        [Event.close 3 (-1), Event.perror "Error closing socket", Event.exit EXIT_FAILURE]) ∧
    step 3 ⟨Loc.loop_head, 1, []⟩ (Step.flag_check (-1)) =
      some ⟨Loc.done EXIT_FAILURE, 1,
        [Event.close 3 (-1), Event.perror "Error closing socket", Event.exit EXIT_FAILURE]⟩ ∧
    EXIT_FAILURE ≠ EXIT_SUCCESS := by
  decide

/-- C8 (amended): whenever the flag check finds the termination flag set, the loop ends, the
controller closes the listening socket exactly once and the process ends, for every result of
that `close`: with `EXIT_SUCCESS` when it succeeded, and with `EXIT_FAILURE`, after the failure
was logged, when it failed. -/
theorem shutdown_closes_listener (server_fd : Int) (c : Controller) (close_ret : Int)
    (hloc : c.loc = Loc.loop_head) (hflag : c.exit_flag ≠ 0) :
    ∃ c' after,
      step server_fd c (Step.flag_check close_ret) = some c' ∧
      c'.loc = Loc.done (if close_ret = -1 then EXIT_FAILURE else EXIT_SUCCESS) ∧
      c'.trace = c.trace ++ Event.close server_fd close_ret :: after ∧
      after.countP is_close = 0 ∧
      (close_ret = -1 → Event.perror "Error closing socket" ∈ after) ∧
      (close_ret ≠ -1 → after = []) := by
  obtain ⟨loc, flag, trace⟩ := c
  simp only at hloc hflag
  subst hloc
  by_cases h : close_ret = -1
  · refine ⟨⟨Loc.done EXIT_FAILURE, flag,
        trace ++ [Event.close server_fd close_ret, Event.perror "Error closing socket",
          Event.exit EXIT_FAILURE]⟩,
      [Event.perror "Error closing socket", Event.exit EXIT_FAILURE], ?_, ?_, ?_, ?_, ?_, ?_⟩
    · simp [step, hflag, after_loop, socket_close, h]
    · simp [h]
    · rfl
    · simp [List.countP_cons, is_close]
    · simp
    · simp [h]
  · refine ⟨⟨Loc.done EXIT_SUCCESS, flag, trace ++ [Event.close server_fd close_ret]⟩, [],
      ?_, ?_, ?_, ?_, ?_, ?_⟩
    · simp [step, hflag, after_loop, socket_close, h]
    · simp [h]
    · rfl
    · simp
    · simp [h]
    · simp

/-- A controller at the flag check with the flag set meets the conditions of C8. -/
theorem shutdown_closes_listener_witness :
    (⟨Loc.loop_head, 1, []⟩ : Controller).loc = Loc.loop_head ∧
    (⟨Loc.loop_head, 1, []⟩ : Controller).exit_flag ≠ 0 ∧
    ∃ c' after,
      step 3 ⟨Loc.loop_head, 1, []⟩ (Step.flag_check 0) = some c' ∧
      c'.loc = Loc.done (if (0 : Int) = -1 then EXIT_FAILURE else EXIT_SUCCESS) ∧
      c'.trace = (⟨Loc.loop_head, 1, []⟩ : Controller).trace ++ Event.close 3 0 :: after ∧
      after.countP is_close = 0 ∧
      ((0 : Int) = -1 → Event.perror "Error closing socket" ∈ after) ∧
      ((0 : Int) ≠ -1 → after = []) :=
  ⟨by decide, by decide, shutdown_closes_listener 3 ⟨Loc.loop_head, 1, []⟩ 0 (by decide)
    (by decide)⟩

/-! ## Claims about startup -/

theorem parse_arguments_wrong_count (argv : List String) (h : argv.length ≠ 2) :
    (parse_arguments argv).1 = Parsed.exited EXIT_FAILURE := by
  simp [parse_arguments, usage, h]

/-- Beyond the range of `long` the value `atoi` returns comes from the nearest bound of
`long`, cut down to an `int`. -/
theorem atoi_saturates :
    atoi "9223372036854775808" = -1 ∧ atoi "-9223372036854775809" = 0 ∧
    (parse_arguments ["server", "99999999999999999999"]).1 = Parsed.port 65535 := by
  decide

/-- C9, evaluated where the code departs from it: with one argument that is not a number the
port becomes 0, with one beyond 65535 it is reduced modulo 65536, with a negative one it wraps,
and trailing text is ignored; none of these ends the process. A missing or extra argument
does end it with `EXIT_FAILURE`, and a decimal port in range is stored as it is. -/
theorem parse_arguments_accepts_invalid_port :
    (parse_arguments ["server", "abc"]).1 = Parsed.port 0 ∧
    (parse_arguments ["server", "70000"]).1 = Parsed.port 4464 ∧
    (parse_arguments ["server", "-1"]).1 = Parsed.port 65535 ∧
    (parse_arguments ["server", "80x"]).1 = Parsed.port 80 ∧
    (parse_arguments ["server"]).1 = Parsed.exited EXIT_FAILURE ∧
    (parse_arguments ["server", "80", "81"]).1 = Parsed.exited EXIT_FAILURE ∧
    (parse_arguments ["server", "8080"]).1 = Parsed.port 8080 := by
  decide

end Server
